import Mathlib

/-!
A shallow embedding of the client-side state-synchronization layer of the
trading dashboard (static/js/scripts.js and static/js/modules/...), with
theorems checking the specified behaviour of its operations.

Conventions used throughout:
* DOM text cells that always hold decimal numerals are modelled by the
  rational number the numeral denotes; toFixed(k) on such a cell is
  modelled by rounding to k decimal places (roundTo).
* Promise chains are modelled by the sequence of displayed states at their
  suspension points, or by the final state they produce, as each property
  requires.
* Fallible network operations take the outcome of the request as an
  explicit argument.
-/

/-- A JavaScript value as it can appear in a price field of a push delta or
poll snapshot: a finite number, a string, null, or undefined. -/
inductive JsVal where
  | num (q : ℚ)
  | str (s : String)
  | null
  | undef
deriving DecidableEq

/-- Pad a digit string with leading zeros up to length dp. -/
def padZeros (dp : Nat) (s : String) : String :=
  if s.length < dp then String.mk (List.replicate (dp - s.length) '0') ++ s else s

/-- Number.prototype.toFixed: format a rational to dp decimal places. -/
def toFixed (dp : Nat) (q : ℚ) : String :=
  let scaled : Int := round (q * 10 ^ dp)
  let sign := if scaled < 0 then "-" else ""
  let a : Nat := scaled.natAbs
  if dp = 0 then sign ++ toString a
  else sign ++ toString (a / 10 ^ dp) ++ "." ++ padZeros dp (toString (a % 10 ^ dp))

/-- scripts.js, socket.on price_update handler, lines 147-157: the text
written into the price cell for one symbol.  Source: the cell receives
prices[symbol].toFixed(4) when the value is not the string "N/A" and has
typeof number (every number does), and otherwise the value itself when it is
truthy (innerText stringifies it) with "N/A" as the fallback for falsy
values. -/
def renderPriceCell : JsVal → String
  | .num q => toFixed 4 q
  | .str s => if s = "" then "N/A" else s
  | .null => "N/A"
  | .undef => "N/A"

/-- modules/market_data.js, updateMarketTable, lines 18-26: the text written
into a market-overview row for one symbol, given the cached value.  Source:
the row receives the value formatted by toFixed(4) behind a dollar sign when
the cached value is truthy and not the string "N/A", and the string "N/A"
otherwise.  On a truthy non-number other than "N/A" the call to .toFixed(4)
throws a TypeError, modelled as none. -/
def updateMarketTable : Option JsVal → Option String
  | some (.num q) => if q = 0 then some "N/A" else some ("$" ++ toFixed 4 q)
  | some (.str s) => if s = "" ∨ s = "N/A" then some "N/A" else none
  | some .null => some "N/A"
  | some .undef => some "N/A"
  | none => some "N/A"

/-- scripts.js line 123: the price cache is replaced by an object spread of
the old cache followed by the delta, so a key present in the delta takes its
value from the delta and every other key keeps the cached value. -/
def applyPushDelta (cache delta : String → Option JsVal) : String → Option JsVal :=
  fun s =>
    match delta s with
    | some v => some v
    | none => cache s

/-- The DOM state this layer maintains for one trading pair row: the text of
the control button action-N and whether the configuration-edit control
carries the disabled class.  bot_control.js, market_data.js and the dashboard
click handlers all address the edit control as edit-action-N; that element is
the one modelled here. -/
structure PairDom where
  actionLabel : String
  editDisabled : Bool
deriving DecidableEq

/-- modules/bot_control.js, updateAllBotStatuses, lines 57-90, body of the
per-pair loop for a pair present in the poll response whose buttons are in
the DOM: the button text follows the reported flag and the disabled class of
the edit control is added exactly when the pair is reported running. -/
def updateAllBotStatuses (running : Bool) : PairDom :=
  { actionLabel := if running then "Stop" else "Start", editDisabled := running }

/-- scripts.js, socket.on price_update, lines 159-175, per symbol carried by
the delta: the control button text follows trade_status[symbol], which is
undefined and hence falsy when the delta carries no flag for the symbol.
The handler then calls getElementById on the id edit-N, while the edit
control has id edit-action-N (the id every other module uses), so the lookup
yields null and the edit control is left untouched. -/
def pushTradeStatus (d : PairDom) (tradeStatus : Option Bool) : PairDom :=
  let running := tradeStatus.getD false
  { d with actionLabel := if running then "Stop" else "Start" }

/-- Body of the /api/control response. -/
structure ControlResponse where
  status : Option String
  bot_is_running : Bool
deriving DecidableEq

/-- ASCII lowercasing of one character, as String.prototype.toLowerCase acts
on the ASCII range. -/
def lowerChar (c : Char) : Char :=
  if 65 ≤ c.toNat ∧ c.toNat ≤ 90 then Char.ofNat (c.toNat + 32) else c

/-- Whether the first character list starts the second. -/
def startsWithSeq : List Char → List Char → Bool
  | [], _ => true
  | _ :: _, [] => false
  | p :: ps, c :: cs => p == c && startsWithSeq ps cs

/-- Whether the pattern occurs as a contiguous run of the list. -/
def containsSeq (pat : List Char) : List Char → Bool
  | [] => startsWithSeq pat []
  | c :: cs => startsWithSeq pat (c :: cs) || containsSeq pat cs

/-- String.prototype.toLowerCase restricted to the ASCII letters that occur
in the status strings. -/
def strLower (s : String) : String := String.mk (s.data.map lowerChar)

/-- String.prototype.includes. -/
def strIncludes (s pat : String) : Bool := containsSeq pat.data s.data

/-- bot_control.js line 26: data.status is truthy and its lowercasing
includes the word invalid. -/
def statusIsInvalid (r : ControlResponse) : Bool :=
  match r.status with
  | some s => strIncludes (strLower s) "invalid"
  | none => false

/-- Outcome of the toggleBot promise chain as observed by its handlers:
a rejected fetch, a response with ok false (thrown as an error), or a parsed
response body. -/
inductive ToggleResult where
  | netErr
  | httpErr
  | respOk (r : ControlResponse)
deriving DecidableEq

/-- modules/bot_control.js, toggleBot, lines 19-55: the pair row state after
the chain settles.  A parsed response whose status contains invalid is
alerted and thrown; every thrown error reaches the catch handler, which
removes the disabled class from the edit control and leaves the button text
as it was.  A good response sets the button text and the edit control from
the bot_is_running flag of the body, never from the locally assumed
action. -/
def toggleBot (d : PairDom) (res : ToggleResult) : PairDom :=
  match res with
  | .respOk r =>
    if statusIsInvalid r then { d with editDisabled := false }
    else
      { actionLabel := if r.bot_is_running then "Stop" else "Start",
        editDisabled := r.bot_is_running }
  | .netErr => { d with editDisabled := false }
  | .httpErr => { d with editDisabled := false }

/-- Displayed states of the pair row at the suspension points of toggleBot:
at the click before any request is issued, while the issued requests are in
flight (the chain contains no DOM write before the response handler runs),
and after the chain settles. -/
def toggleTrace (d : PairDom) (res : ToggleResult) : List PairDom :=
  [d, d, toggleBot d res]

/-- HTTP requests issued by the control flow. -/
inductive ApiRequest where
  | clearOpenPositions (symbol exchange trading_mode : String)
  | control (action : String) (pair_id : Nat)
deriving DecidableEq

/-- modules/bot_control.js, toggleBot, lines 1-18: the requests issued and
their order, given the trimmed innerText of the control button (the source
trims the label before comparing it to Start).  For action start the control
request is chained on completion of the clear_open_positions request, so
list order is both issue order and completion order; for any other label the
chain starts from an already resolved promise and the control request is
issued directly. -/
def toggleBotRequests (label : String) (pairId : Nat) (symbol exchange mode : String) :
    List ApiRequest :=
  let action := if label = "Start" then "start" else "stop"
  (if action = "start" then [ApiRequest.clearOpenPositions symbol exchange mode] else [])
    ++ [ApiRequest.control action pairId]

/-- One notification message as served by /api/notifications. -/
structure Msg where
  timestamp : String
  type : String
  message : String
deriving DecidableEq

/-- The /api/notifications response: symbols with their message lists, in the
iteration order of Object.entries. -/
abbrev PollData := List (String × List Msg)

/-- modules/notifications.js line 17: the dedup identity of a notification. -/
def notifId (symbol : String) (m : Msg) : String := symbol ++ "-" ++ m.timestamp

/-- State touched by one updateNotifications render pass: the module-level
seenNotifications set, the alerts raised during the pass, and the list items
appended to the dropdown during the pass. -/
structure NotifState where
  seen : List String
  alerts : List (String × Msg)
  rendered : List (String × Msg)
deriving DecidableEq

/-- modules/notifications.js lines 16-27, body of the message loop: a message
whose id is not yet in the seen set is added to it and, when its type is
error, alerted; every message is appended to the rendered list. -/
def processMsg (st : NotifState) (it : String × Msg) : NotifState :=
  if notifId it.1 it.2 ∈ st.seen then { st with rendered := st.rendered ++ [it] }
  else
    { seen := st.seen ++ [notifId it.1 it.2],
      alerts := if it.2.type = "error" then st.alerts ++ [it] else st.alerts,
      rendered := st.rendered ++ [it] }

/-- Folding the message processor over a flat list of symbol and message
pairs. -/
def processItems (st : NotifState) (l : List (String × Msg)) : NotifState :=
  l.foldl processMsg st

/-- modules/notifications.js lines 15-27: the nested iteration over the
response entries and their message lists. -/
def processPoll (st : NotifState) (d : PollData) : NotifState :=
  d.foldl (fun acc e => e.2.foldl (fun acc2 m => processMsg acc2 (e.1, m)) acc) st

/-- The symbol and message pairs of a poll response, in iteration order. -/
def pollItems : PollData → List (String × Msg)
  | [] => []
  | (s, msgs) :: rest => msgs.map (fun m => (s, m)) ++ pollItems rest

/-- modules/notifications.js, updateNotifications, lines 3-43: one completed
poll processes every entry of the response in order against the seen set,
starting from an emptied dropdown list and no alerts raised so far. -/
def updateNotifications (seen : List String) (d : PollData) : NotifState :=
  processPoll { seen := seen, alerts := [], rendered := [] } d

/-- Consecutive completed notification polls: each pass starts from the seen
set the previous pass left behind. -/
def runPolls (seen : List String) : List PollData → List NotifState
  | [] => []
  | d :: rest =>
    let st := updateNotifications seen d
    st :: runPolls st.seen rest

/-- A sample error notification, used to instantiate the dedup property. -/
def sampleMsg : Msg := ⟨"t1", "error", "Insufficient balance"⟩

/-- A run of three consecutive polls all carrying the sample notification. -/
def samplePolls : List PollData :=
  [[("BTC", [sampleMsg])], [("BTC", [sampleMsg])], [("BTC", [sampleMsg])]]

/-- Outcome of the clear_notifications POST as observed by the chain in
clearNotifications: failure covers a rejected fetch and a body that fails to
parse as JSON (both reject the chain); success is a parsed response of any
content. -/
inductive ClearOutcome where
  | failure
  | success
deriving DecidableEq

/-- modules/notifications.js, clearNotifications, lines 45-55: the value of
seenNotifications at the suspension points of the chain: when the POST is
issued, when the response has arrived and the body is being parsed, and
after the chain settles.  The call seenNotifications.clear() is the only
local write; it runs in the then handler, after the request completed.  The
catch path performs no local write. -/
def clearNotifications (seen : List String) (out : ClearOutcome) : List (List String) :=
  [seen, seen,
    match out with
    | .failure => seen
    | .success => []]

/-- The pagination list items built by updatePaginationControls. -/
structure PageControls where
  prevDisabled : Bool
  pageLabel : Nat
  nextDisabled : Bool
deriving DecidableEq

/-- trades module, updatePaginationControls, lines 101-157: with a total of
at most one page the function returns right after clearing the container, so
no controls are rendered; otherwise Previous is disabled when currentPage is
falsy or equals 1, and Next is disabled when currentPage is falsy or equals
totalPages. -/
def updatePaginationControls (totalPages currentPage : Nat) : Option PageControls :=
  if totalPages ≤ 1 then none
  else
    some
      { prevDisabled := currentPage == 0 || currentPage == 1,
        pageLabel := currentPage,
        nextDisabled := currentPage == 0 || currentPage == totalPages }

/-- One rendered row of an account profit table: the data-pair-id attribute
and the rational values displayed in the two cells profit-usdc-info-N and
profit-crypto-info-N (the cells always hold decimal numerals and are
modelled by their value). -/
structure ProfitRow where
  pairId : Nat
  usdc : ℚ
  crypto : ℚ
deriving DecidableEq

/-- A rendered account group: the table body rows and the two totals
displayed in the heading spans account-pnl-usdc and account-pnl-crypto. -/
structure ProfitGroup where
  rows : List ProfitRow
  headUsdc : ℚ
  headCrypto : ℚ
deriving DecidableEq

/-- Rounding to dp decimal places: the value denoted by the numeral that
Number.prototype.toFixed(dp) produces. -/
def roundTo (dp : Nat) (q : ℚ) : ℚ := (round (q * 10 ^ dp) : ℚ) / 10 ^ dp

/-- modules/market_data.js, removePairProfit, lines 158-196, success branch:
when a row with the given data-pair-id is present, the first such row is
removed, both totals are recomputed by accumulating parseFloat of the cells
of each remaining row, and the heading spans are rewritten with toFixed(4)
and toFixed(6) of the accumulated totals. -/
def removePairProfit (g : ProfitGroup) (pid : Nat) : ProfitGroup :=
  if g.rows.any (fun r => r.pairId == pid) then
    let rows := g.rows.eraseP (fun r => r.pairId == pid)
    { rows := rows,
      headUsdc := roundTo 4 (rows.foldl (fun acc r => acc + r.usdc) 0),
      headCrypto := roundTo 6 (rows.foldl (fun acc r => acc + r.crypto) 0) }
  else g

/-- modules/market_data.js, resetProfit, lines 135-156, success branch: the
two cells profit-usdc-info-N and profit-crypto-info-N of the given pair are
set to the numeral 0.0; nothing else is written.  In particular the heading
spans are not rewritten and no data refresh is triggered. -/
def resetProfit (g : ProfitGroup) (pid : Nat) : ProfitGroup :=
  { g with
    rows := g.rows.map fun r =>
      if r.pairId == pid then { r with usdc := 0, crypto := 0 } else r }

/-- The edit-while-running invariant, read off the displayed label: a pair
displaying Stop is running and must have the edit control disabled, a pair
displaying Start is stopped and must have it enabled. -/
def editInvariant (d : PairDom) : Prop :=
  (d.actionLabel = "Stop" → d.editDisabled = true) ∧
  (d.actionLabel = "Start" → d.editDisabled = false)

/-- C1 counterexample: the claim requires the edit control to be disabled
after every toggle, whether it succeeds or fails, whenever the pair is
Running.  Take a pair that displays Running (button text Stop, edit control
disabled) and let the stop toggle fail with a network error: the catch
handler of toggleBot unconditionally removes the disabled class, so the pair
still displays Running while its edit control is enabled. -/
theorem C1_counterexample :
    toggleBot ⟨"Stop", true⟩ ToggleResult.netErr = ⟨"Stop", false⟩ := rfl

/-- C1 amended: the edit-while-running invariant holds for every pair
written by a completed bot-status poll and for every toggle that completes
with a response that is not an invalid rejection; it does not survive a
failed toggle (the catch handler enables the edit control even when the pair
is still Running), and a price_update push leaves the edit control
untouched, because the handler looks up element id edit-N while the control
has id edit-action-N. -/
theorem C1_prop (running : Bool) (d : PairDom) (ts : Option Bool)
    (r : ControlResponse) (hr : statusIsInvalid r = false) :
    editInvariant (updateAllBotStatuses running) ∧
    editInvariant (toggleBot d (ToggleResult.respOk r)) ∧
    (pushTradeStatus d ts).editDisabled = d.editDisabled := by
  refine ⟨?_, ?_, rfl⟩
  · cases running <;> simp [updateAllBotStatuses, editInvariant]
  · simp only [toggleBot, hr, Bool.false_eq_true, if_false]
    cases r.bot_is_running <;> simp [editInvariant]

/-- C1 witness: the amended statement at a concrete input. -/
theorem C1_witness :
    statusIsInvalid ⟨none, false⟩ = false ∧
    (editInvariant (updateAllBotStatuses true) ∧
     editInvariant (toggleBot ⟨"Start", false⟩ (ToggleResult.respOk ⟨none, false⟩)) ∧
     (pushTradeStatus ⟨"Start", false⟩ (some true)).editDisabled = false) :=
  ⟨rfl, C1_prop true ⟨"Start", false⟩ (some true) ⟨none, false⟩ rfl⟩

/-- C2 counterexample: the claim requires the displayed button state to flip
immediately on the click, before any server response arrives.  In toggleBot
no DOM write happens before the response handler: with the button showing
Start, the displayed state at both pre-response suspension points is still
Start (the claimed optimistic value would be Stop). -/
theorem C2_counterexample :
    (toggleTrace ⟨"Start", false⟩ (ToggleResult.respOk ⟨some "ok", true⟩)).take 2 =
      [⟨"Start", false⟩, ⟨"Start", false⟩] := rfl

/-- C2 amended: there is no optimistic update.  The displayed state is
unchanged until the server response arrives; a good response sets the button
from the server-reported bot_is_running flag; a failed request (network
error, non-ok response, or invalid status) leaves the displayed label at its
pre-click value and only re-enables the edit control. -/
theorem C2_prop (d : PairDom) (res : ToggleResult) :
    (toggleTrace d res).take 2 = [d, d] ∧
    (∀ r : ControlResponse, res = ToggleResult.respOk r → statusIsInvalid r = false →
      (toggleBot d res).actionLabel = (if r.bot_is_running then "Stop" else "Start") ∧
      (toggleBot d res).editDisabled = r.bot_is_running) ∧
    ((res = ToggleResult.netErr ∨ res = ToggleResult.httpErr) →
      (toggleBot d res).actionLabel = d.actionLabel) ∧
    (∀ r : ControlResponse, res = ToggleResult.respOk r → statusIsInvalid r = true →
      (toggleBot d res).actionLabel = d.actionLabel) := by
  refine ⟨rfl, ?_, ?_, ?_⟩
  · intro r h hinv
    subst h
    simp [toggleBot, hinv]
  · rintro (h | h) <;> subst h <;> rfl
  · intro r h hinv
    subst h
    simp [toggleBot, hinv]

/-- C2 witness: the amended statement at a concrete input. -/
theorem C2_witness :
    ((toggleTrace ⟨"Start", false⟩ (ToggleResult.respOk ⟨none, true⟩)).take 2 =
      [(⟨"Start", false⟩ : PairDom), ⟨"Start", false⟩]) ∧
    statusIsInvalid ⟨none, true⟩ = false ∧
    (toggleBot ⟨"Start", false⟩ (ToggleResult.respOk ⟨none, true⟩)).actionLabel = "Stop" :=
  ⟨(C2_prop ⟨"Start", false⟩ (ToggleResult.respOk ⟨none, true⟩)).1, rfl, by
    have h := ((C2_prop ⟨"Start", false⟩ (ToggleResult.respOk ⟨none, true⟩)).2.1
      ⟨none, true⟩ rfl rfl).1
    simpa using h⟩

/-- C3 counterexample: for the non-numeric truthy value "abc" the
price_update path writes the value verbatim, which is neither the price
formatted to 4 decimal places nor the sentinel, and the updateMarketTable
path throws a TypeError when it calls toFixed on it (modelled as none). -/
theorem C3_counterexample :
    renderPriceCell (JsVal.str "abc") = "abc" ∧
    updateMarketTable (some (JsVal.str "abc")) = none := ⟨rfl, rfl⟩

/-- C3 amended: the price_update path never throws and writes the formatted
price for numbers, the sentinel for falsy values and the string "N/A", and
any other truthy non-numeric value verbatim; the updateMarketTable path
throws exactly on truthy non-numeric values other than "N/A". -/
theorem C3_prop (p : JsVal) :
    (renderPriceCell p = "N/A" ∨
      (∃ q : ℚ, p = JsVal.num q ∧ renderPriceCell p = toFixed 4 q) ∨
      (∃ s : String, p = JsVal.str s ∧ s ≠ "" ∧ s ≠ "N/A" ∧ renderPriceCell p = s)) ∧
    (updateMarketTable (some p) = none ↔
      ∃ s : String, p = JsVal.str s ∧ s ≠ "" ∧ s ≠ "N/A") := by
  cases p with
  | num q =>
    constructor
    · exact Or.inr (Or.inl ⟨q, rfl, rfl⟩)
    · by_cases h : q = 0 <;> simp [updateMarketTable, h]
  | str s =>
    by_cases h1 : s = ""
    · subst h1
      constructor
      · exact Or.inl rfl
      · simp [updateMarketTable]
    · by_cases h2 : s = "N/A"
      · subst h2
        constructor
        · exact Or.inl rfl
        · simp [updateMarketTable]
      · constructor
        · exact Or.inr (Or.inr ⟨s, rfl, h1, h2, by simp [renderPriceCell, h1]⟩)
        · simp [updateMarketTable, h1, h2]
  | null =>
    constructor
    · exact Or.inl rfl
    · simp [updateMarketTable]
  | undef =>
    constructor
    · exact Or.inl rfl
    · simp [updateMarketTable]

/-- C4: a toggle whose displayed label is Start issues the
clear_open_positions request carrying the symbol, exchange and mode of the
pair, chained so that it completes before the control request with action
start is issued; a toggle whose displayed label is Stop issues the control
request with action stop directly, with no clear request. -/
theorem C4_prop (label : String) (pairId : Nat) (symbol exchange mode : String) :
    (label = "Start" →
      toggleBotRequests label pairId symbol exchange mode =
        [ApiRequest.clearOpenPositions symbol exchange mode,
         ApiRequest.control "start" pairId]) ∧
    (label = "Stop" →
      toggleBotRequests label pairId symbol exchange mode =
        [ApiRequest.control "stop" pairId]) := by
  constructor
  · intro h
    subst h
    rfl
  · intro h
    subst h
    rfl

/-- C4 witness: the start-flow scenario of the spec, pair 7 on binance in
real mode showing Start. -/
theorem C4_witness :
    ("Start" : String) = "Start" ∧
    toggleBotRequests "Start" 7 "BTCUSDC" "binance" "real" =
      [ApiRequest.clearOpenPositions "BTCUSDC" "binance" "real",
       ApiRequest.control "start" 7] :=
  ⟨rfl, (C4_prop "Start" 7 "BTCUSDC" "binance" "real").1 rfl⟩

/-- C5: merging a push delta changes the cache only at the symbols the delta
carries; every symbol not present in the delta keeps exactly its previous
cached value, and a symbol present gets the delta value. -/
theorem C5_prop (cache delta : String → Option JsVal) (s : String) :
    (delta s = none → applyPushDelta cache delta s = cache s) ∧
    (∀ v : JsVal, delta s = some v → applyPushDelta cache delta s = some v) := by
  constructor
  · intro h
    simp [applyPushDelta, h]
  · intro v h
    simp [applyPushDelta, h]

/-- C5 witness: a delta carrying only BTCUSDC leaves the cached price of
ETHUSDC exactly as it was. -/
theorem C5_witness :
    (fun s => if s = "BTCUSDC" then some (JsVal.num 50000) else none : String → Option JsVal)
        "ETHUSDC" = none ∧
    applyPushDelta (fun _ => some (JsVal.num 3))
        (fun s => if s = "BTCUSDC" then some (JsVal.num 50000) else none) "ETHUSDC" =
      some (JsVal.num 3) :=
  ⟨rfl,
    (C5_prop (fun _ => some (JsVal.num 3))
      (fun s => if s = "BTCUSDC" then some (JsVal.num 50000) else none) "ETHUSDC").1 rfl⟩

/-- C8: the local seen-set keeps its value at every suspension point before
the clear request has completed; when the request fails the catch path
leaves it unchanged, and only a completed successful request resets it. -/
theorem C8_prop (seen : List String) (out : ClearOutcome) :
    (clearNotifications seen out).take 2 = [seen, seen] ∧
    (out = ClearOutcome.failure → clearNotifications seen out = [seen, seen, seen]) ∧
    (out = ClearOutcome.success → clearNotifications seen out = [seen, seen, []]) := by
  refine ⟨rfl, ?_, ?_⟩ <;> (intro h; subst h; rfl)

/-- C8 witness: the statement at a concrete seen-set and a failing server
clear. -/
theorem C8_witness :
    ((clearNotifications ["BTCUSDC-t1"] ClearOutcome.failure).take 2 =
      [["BTCUSDC-t1"], ["BTCUSDC-t1"]]) ∧
    ClearOutcome.failure = ClearOutcome.failure ∧
    clearNotifications ["BTCUSDC-t1"] ClearOutcome.failure =
      [["BTCUSDC-t1"], ["BTCUSDC-t1"], ["BTCUSDC-t1"]] :=
  ⟨(C8_prop ["BTCUSDC-t1"] ClearOutcome.failure).1, rfl,
    (C8_prop ["BTCUSDC-t1"] ClearOutcome.failure).2.1 rfl⟩

/-- C9 counterexample: a rendered single-page response (total_pages 1,
current_page 1) produces no pagination controls at all, where the claim
requires controls rendered with both ends disabled. -/
theorem C9_counterexample : updatePaginationControls 1 1 = none := rfl

/-- C9 amended: for a response reporting at least two pages and a
current_page within range, pagination controls are rendered with Previous
disabled exactly when current_page is 1 and Next disabled exactly when
current_page equals total_pages; a response reporting at most one page
renders no controls. -/
theorem C9_prop (totalPages currentPage : Nat) (h2 : 2 ≤ totalPages)
    (h1 : 1 ≤ currentPage) (hle : currentPage ≤ totalPages) :
    ∃ c : PageControls, updatePaginationControls totalPages currentPage = some c ∧
      (c.prevDisabled = true ↔ currentPage = 1) ∧
      (c.nextDisabled = true ↔ currentPage = totalPages) ∧
      c.pageLabel = currentPage := by
  unfold updatePaginationControls
  rw [if_neg (by omega : ¬ totalPages ≤ 1)]
  refine ⟨_, rfl, ?_, ?_, rfl⟩
  · simp only [Bool.or_eq_true, beq_iff_eq]
    omega
  · simp only [Bool.or_eq_true, beq_iff_eq]
    omega

/-- C9 witness: the pagination scenario of the spec, receiving current_page
2 of total_pages 2 disables Next and leaves Previous enabled. -/
theorem C9_witness :
    ((2:Nat) ≤ 2 ∧ (1:Nat) ≤ 2 ∧ (2:Nat) ≤ 2) ∧
    (∃ c : PageControls, updatePaginationControls 2 2 = some c ∧
      (c.prevDisabled = true ↔ (2:Nat) = 1) ∧
      (c.nextDisabled = true ↔ (2:Nat) = 2) ∧
      c.pageLabel = 2) :=
  ⟨⟨by decide, by decide, by decide⟩, C9_prop 2 2 (by decide) (by decide) (by decide)⟩

/-- A rational whose product with the power of ten is an integer is fixed by
rounding to that many decimal places. -/
theorem roundTo_eq_self (dp : Nat) (q : ℚ) (n : ℤ) (h : q * 10 ^ dp = (n : ℚ)) :
    roundTo dp q = q := by
  have hpow : ((10 : ℚ) ^ dp) ≠ 0 := by positivity
  rw [roundTo, h, round_intCast, div_eq_iff hpow]
  exact h.symm

/-- The forEach accumulation used by removePairProfit is the sum of the
mapped values. -/
theorem foldl_add_eq_sum (f : ProfitRow → ℚ) (l : List ProfitRow) (a : ℚ) :
    l.foldl (fun acc r => acc + f r) a = a + (l.map f).sum := by
  induction l generalizing a with
  | nil => simp
  | cons x xs ih => simp [ih, add_assoc]

/-- A sum of rationals that are integer multiples of the same scale is again
such a multiple. -/
theorem sum_mul_int (c : ℚ) (l : List ℚ) (h : ∀ x ∈ l, ∃ n : ℤ, x * c = (n : ℚ)) :
    ∃ n : ℤ, l.sum * c = (n : ℚ) := by
  induction l with
  | nil => exact ⟨0, by simp⟩
  | cons x xs ih =>
    obtain ⟨m, hm⟩ := h x (by simp)
    obtain ⟨k, hk⟩ := ih fun y hy => h y (by simp [hy])
    refine ⟨m + k, ?_⟩
    rw [List.sum_cons, add_mul, hm, hk]
    push_cast
    ring

/-- C6: after a successful remove-pair-profit with the target row present,
the two heading totals equal exactly the sums of the respective values of
the rows still rendered in the table body.  The hypotheses record that every
cell holds a numeral with at most 4 (respectively 6) decimal places, which
renderPairProfits and resetProfit guarantee for every cell they write, so
the toFixed rounding of the recomputed totals is exact. -/
theorem C6_prop (g : ProfitGroup) (pid : Nat)
    (h4 : ∀ r ∈ g.rows, ∃ n : ℤ, r.usdc * 10 ^ 4 = (n : ℚ))
    (h6 : ∀ r ∈ g.rows, ∃ n : ℤ, r.crypto * 10 ^ 6 = (n : ℚ))
    (hmem : g.rows.any (fun r => r.pairId == pid) = true) :
    (removePairProfit g pid).headUsdc =
      ((removePairProfit g pid).rows.map fun r => r.usdc).sum ∧
    (removePairProfit g pid).headCrypto =
      ((removePairProfit g pid).rows.map fun r => r.crypto).sum := by
  have hsub : ∀ r ∈ g.rows.eraseP (fun r => r.pairId == pid), r ∈ g.rows :=
    fun r hr => (List.eraseP_sublist g.rows).subset hr
  have h4s : ∃ n : ℤ,
      ((g.rows.eraseP (fun r => r.pairId == pid)).map fun r => r.usdc).sum * 10 ^ 4 = (n : ℚ) := by
    apply sum_mul_int
    intro x hx
    obtain ⟨r, hr, rfl⟩ := List.mem_map.mp hx
    exact h4 r (hsub r hr)
  have h6s : ∃ n : ℤ,
      ((g.rows.eraseP (fun r => r.pairId == pid)).map fun r => r.crypto).sum * 10 ^ 6 = (n : ℚ) := by
    apply sum_mul_int
    intro x hx
    obtain ⟨r, hr, rfl⟩ := List.mem_map.mp hx
    exact h6 r (hsub r hr)
  obtain ⟨n4, hn4⟩ := h4s
  obtain ⟨n6, hn6⟩ := h6s
  rw [removePairProfit, if_pos hmem]
  dsimp only
  constructor
  · rw [foldl_add_eq_sum, zero_add]
    exact roundTo_eq_self 4 _ n4 hn4
  · rw [foldl_add_eq_sum, zero_add]
    exact roundTo_eq_self 6 _ n6 hn6

/-- C6 witness: the statement at a concrete two-row group. -/
theorem C6_witness :
    (∀ r ∈ (⟨[⟨1, 0, 0⟩, ⟨2, 0, 0⟩], 0, 0⟩ : ProfitGroup).rows,
      ∃ n : ℤ, r.usdc * 10 ^ 4 = (n : ℚ)) ∧
    (∀ r ∈ (⟨[⟨1, 0, 0⟩, ⟨2, 0, 0⟩], 0, 0⟩ : ProfitGroup).rows,
      ∃ n : ℤ, r.crypto * 10 ^ 6 = (n : ℚ)) ∧
    (⟨[⟨1, 0, 0⟩, ⟨2, 0, 0⟩], 0, 0⟩ : ProfitGroup).rows.any
      (fun r => r.pairId == 1) = true ∧
    ((removePairProfit ⟨[⟨1, 0, 0⟩, ⟨2, 0, 0⟩], 0, 0⟩ 1).headUsdc =
        ((removePairProfit ⟨[⟨1, 0, 0⟩, ⟨2, 0, 0⟩], 0, 0⟩ 1).rows.map fun r => r.usdc).sum ∧
      (removePairProfit ⟨[⟨1, 0, 0⟩, ⟨2, 0, 0⟩], 0, 0⟩ 1).headCrypto =
        ((removePairProfit ⟨[⟨1, 0, 0⟩, ⟨2, 0, 0⟩], 0, 0⟩ 1).rows.map fun r => r.crypto).sum) :=
  ⟨fun r hr => ⟨0, by simp only [List.mem_cons, List.not_mem_nil, or_false] at hr; rcases hr with rfl | rfl <;> simp⟩,
   fun r hr => ⟨0, by simp only [List.mem_cons, List.not_mem_nil, or_false] at hr; rcases hr with rfl | rfl <;> simp⟩,
   rfl,
   C6_prop ⟨[⟨1, 0, 0⟩, ⟨2, 0, 0⟩], 0, 0⟩ 1
     (fun r hr => ⟨0, by simp only [List.mem_cons, List.not_mem_nil, or_false] at hr; rcases hr with rfl | rfl <;> simp⟩)
     (fun r hr => ⟨0, by simp only [List.mem_cons, List.not_mem_nil, or_false] at hr; rcases hr with rfl | rfl <;> simp⟩)
     rfl⟩

/-- C10: a successful reset-profit zeroes only the two cells of the targeted
pair; every other row keeps its cells and the heading totals are left
untouched, and consequently a heading total can differ from the sum of the
visible rows afterwards (last conjunct: a concrete group where the displayed
totals were consistent before the reset and inconsistent after it). -/
theorem C10_prop (g : ProfitGroup) (pid : Nat) :
    ((resetProfit g pid).headUsdc = g.headUsdc ∧
     (resetProfit g pid).headCrypto = g.headCrypto) ∧
    (∀ r ∈ (resetProfit g pid).rows, r.pairId = pid → r.usdc = 0 ∧ r.crypto = 0) ∧
    (∀ r ∈ g.rows, r.pairId ≠ pid → r ∈ (resetProfit g pid).rows) ∧
    (∃ g0 : ProfitGroup, ∃ p0 : Nat,
      g0.headUsdc = (g0.rows.map fun r => r.usdc).sum ∧
      (resetProfit g0 p0).headUsdc ≠ ((resetProfit g0 p0).rows.map fun r => r.usdc).sum) := by
  refine ⟨⟨rfl, rfl⟩, ?_, ?_, ?_⟩
  · intro r hr hpid
    simp only [resetProfit, List.mem_map] at hr
    obtain ⟨r0, hr0, rfl⟩ := hr
    by_cases h : (r0.pairId == pid) = true
    · rw [if_pos h]
      exact ⟨rfl, rfl⟩
    · rw [if_neg h] at hpid ⊢
      exact absurd hpid (by simpa using h)
  · intro r hr hne
    simp only [resetProfit, List.mem_map]
    refine ⟨r, hr, ?_⟩
    rw [if_neg (by simpa using hne)]
  · refine ⟨⟨[⟨1, 1, 0⟩], 1, 0⟩, 1, by simp, ?_⟩
    simp [resetProfit]

/-- C10 witness: the statement at a concrete group and pair. -/
theorem C10_witness :
    ((resetProfit ⟨[⟨1, 1, 2⟩, ⟨2, 1, 2⟩], 2, 4⟩ 1).headUsdc = 2 ∧
     (resetProfit ⟨[⟨1, 1, 2⟩, ⟨2, 1, 2⟩], 2, 4⟩ 1).headCrypto = 4) ∧
    ((⟨2, 1, 2⟩ : ProfitRow) ∈ (⟨[⟨1, 1, 2⟩, ⟨2, 1, 2⟩], 2, 4⟩ : ProfitGroup).rows ∧
     (2 : Nat) ≠ 1 ∧
     (⟨2, 1, 2⟩ : ProfitRow) ∈ (resetProfit ⟨[⟨1, 1, 2⟩, ⟨2, 1, 2⟩], 2, 4⟩ 1).rows) :=
  ⟨(C10_prop ⟨[⟨1, 1, 2⟩, ⟨2, 1, 2⟩], 2, 4⟩ 1).1,
   by simp,
   by decide,
   (C10_prop ⟨[⟨1, 1, 2⟩, ⟨2, 1, 2⟩], 2, 4⟩ 1).2.2.1 ⟨2, 1, 2⟩ (by simp) (by decide)⟩

/-- The nested iteration of a poll response equals processing its flattened
item list. -/
theorem processPoll_eq (st : NotifState) (d : PollData) :
    processPoll st d = processItems st (pollItems d) := by
  induction d generalizing st with
  | nil => rfl
  | cons e rest ih =>
    obtain ⟨s, msgs⟩ := e
    simp only [processPoll, List.foldl_cons, pollItems, processItems, List.foldl_append,
      List.foldl_map]
    exact ih _

/-- Processing a message never removes an id from the seen set. -/
theorem processMsg_seen_mono (st : NotifState) (it : String × Msg) (x : String)
    (h : x ∈ st.seen) : x ∈ (processMsg st it).seen := by
  unfold processMsg
  by_cases hm : notifId it.1 it.2 ∈ st.seen
  · rw [if_pos hm]
    exact h
  · rw [if_neg hm]
    exact List.mem_append_left _ h

/-- Processing a message puts its own id into the seen set. -/
theorem processMsg_seen_self (st : NotifState) (it : String × Msg) :
    notifId it.1 it.2 ∈ (processMsg st it).seen := by
  unfold processMsg
  by_cases hm : notifId it.1 it.2 ∈ st.seen
  · rw [if_pos hm]
    exact hm
  · rw [if_neg hm]
    exact List.mem_append_right _ (by simp)

/-- Processing a list of messages never removes an id from the seen set. -/
theorem processItems_seen_mono (l : List (String × Msg)) (st : NotifState) (x : String)
    (h : x ∈ st.seen) : x ∈ (processItems st l).seen := by
  induction l generalizing st with
  | nil => exact h
  | cons it rest ih => exact ih (processMsg st it) (processMsg_seen_mono st it x h)

/-- After processing a list containing a message, its id is in the seen
set. -/
theorem processItems_seen_mem (l : List (String × Msg)) (st : NotifState)
    (s : String) (m : Msg) (h : (s, m) ∈ l) :
    notifId s m ∈ (processItems st l).seen := by
  induction l generalizing st with
  | nil => cases h
  | cons hd rest ih =>
    rcases List.mem_cons.mp h with rfl | h
    · exact processItems_seen_mono rest _ _ (processMsg_seen_self st (s, m))
    · exact ih (processMsg st hd) h

/-- Processing a message keeps everything already rendered. -/
theorem processMsg_rendered_mono (st : NotifState) (it it2 : String × Msg)
    (h : it2 ∈ st.rendered) : it2 ∈ (processMsg st it).rendered := by
  unfold processMsg
  by_cases hm : notifId it.1 it.2 ∈ st.seen
  · rw [if_pos hm]
    exact List.mem_append_left _ h
  · rw [if_neg hm]
    exact List.mem_append_left _ h

/-- Processing a message renders it, seen or not. -/
theorem processMsg_rendered_self (st : NotifState) (it : String × Msg) :
    it ∈ (processMsg st it).rendered := by
  unfold processMsg
  by_cases hm : notifId it.1 it.2 ∈ st.seen
  · rw [if_pos hm]
    exact List.mem_append_right _ (by simp)
  · rw [if_neg hm]
    exact List.mem_append_right _ (by simp)

/-- Processing a list of messages keeps everything already rendered. -/
theorem processItems_rendered_mono (l : List (String × Msg)) (st : NotifState)
    (it2 : String × Msg) (h : it2 ∈ st.rendered) : it2 ∈ (processItems st l).rendered := by
  induction l generalizing st with
  | nil => exact h
  | cons it rest ih => exact ih (processMsg st it) (processMsg_rendered_mono st it it2 h)

/-- Every message of the processed list ends up rendered. -/
theorem processItems_rendered_mem (l : List (String × Msg)) (st : NotifState)
    (it : String × Msg) (h : it ∈ l) : it ∈ (processItems st l).rendered := by
  induction l generalizing st with
  | nil => cases h
  | cons hd rest ih =>
    rcases List.mem_cons.mp h with rfl | h
    · exact processItems_rendered_mono rest _ _ (processMsg_rendered_self st it)
    · exact ih (processMsg st hd) h

/-- Once the id of a notification is in the seen set, processing one message
raises no further alert for it. -/
theorem processMsg_count_seen (st : NotifState) (it : String × Msg) (s : String) (m : Msg)
    (h : notifId s m ∈ st.seen) :
    (processMsg st it).alerts.count (s, m) = st.alerts.count (s, m) := by
  unfold processMsg
  by_cases hm : notifId it.1 it.2 ∈ st.seen
  · rw [if_pos hm]
  · rw [if_neg hm]
    dsimp only
    by_cases ht : it.2.type = "error"
    · rw [if_pos ht, List.count_append]
      have hne : (s, m) ∉ [it] := by
        simp only [List.mem_singleton]
        rintro rfl
        exact hm h
      rw [List.count_eq_zero.mpr hne, add_zero]
    · rw [if_neg ht]

/-- Once the id of a notification is in the seen set, processing any list of
messages raises no further alert for it. -/
theorem processItems_count_seen (l : List (String × Msg)) (st : NotifState)
    (s : String) (m : Msg) (h : notifId s m ∈ st.seen) :
    (processItems st l).alerts.count (s, m) = st.alerts.count (s, m) := by
  induction l generalizing st with
  | nil => rfl
  | cons hd rest ih =>
    rw [show processItems st (hd :: rest) = processItems (processMsg st hd) rest from rfl,
      ih (processMsg st hd) (processMsg_seen_mono st hd _ h),
      processMsg_count_seen st hd s m h]

/-- A notification whose type is not error is never alerted, whatever the
seen set. -/
theorem processItems_count_nonerror (l : List (String × Msg)) (st : NotifState)
    (s : String) (m : Msg) (herr : m.type ≠ "error") :
    (processItems st l).alerts.count (s, m) = st.alerts.count (s, m) := by
  induction l generalizing st with
  | nil => rfl
  | cons hd rest ih =>
    rw [show processItems st (hd :: rest) = processItems (processMsg st hd) rest from rfl, ih]
    unfold processMsg
    by_cases hm : notifId hd.1 hd.2 ∈ st.seen
    · rw [if_pos hm]
    · rw [if_neg hm]
      dsimp only
      by_cases ht : hd.2.type = "error"
      · rw [if_pos ht, List.count_append]
        have hne : (s, m) ∉ [hd] := by
          simp only [List.mem_singleton]
          rintro rfl
          exact herr ht
        rw [List.count_eq_zero.mpr hne, add_zero]
      · rw [if_neg ht]

/-- A fresh error notification contained in the list, whose id no other
message of the list shares, is alerted exactly once by processing the
list. -/
theorem processItems_count_fresh (l : List (String × Msg)) (st : NotifState)
    (s : String) (m : Msg)
    (hfresh : notifId s m ∉ st.seen)
    (hmem : (s, m) ∈ l)
    (herr : m.type = "error")
    (hid : ∀ it ∈ l, notifId it.1 it.2 = notifId s m → it = (s, m)) :
    (processItems st l).alerts.count (s, m) = st.alerts.count (s, m) + 1 := by
  induction l generalizing st with
  | nil => cases hmem
  | cons hd rest ih =>
    have hstep : processItems st (hd :: rest) = processItems (processMsg st hd) rest := rfl
    by_cases hhd : hd = (s, m)
    · have halerts : (processMsg st hd).alerts = st.alerts ++ [(s, m)] := by
        subst hhd
        unfold processMsg
        dsimp only
        rw [if_neg hfresh, if_pos herr]
      have hseen : notifId s m ∈ (processMsg st hd).seen := by
        subst hhd
        exact processMsg_seen_self st (s, m)
      rw [hstep, processItems_count_seen rest _ s m hseen, halerts, List.count_append]
      simp
    · have hmem2 : (s, m) ∈ rest := by
        rcases List.mem_cons.mp hmem with h | h
        · exact absurd h.symm hhd
        · exact h
      have hidne : notifId hd.1 hd.2 ≠ notifId s m := fun he => hhd (hid hd (by simp) he)
      have hfresh2 : notifId s m ∉ (processMsg st hd).seen := by
        unfold processMsg
        by_cases hm : notifId hd.1 hd.2 ∈ st.seen
        · rw [if_pos hm]
          exact hfresh
        · rw [if_neg hm]
          dsimp only
          intro hc
          rcases List.mem_append.mp hc with hc | hc
          · exact hfresh hc
          · have heq : notifId s m = notifId hd.1 hd.2 := by simpa using hc
            exact hidne heq.symm
      have hcount : (processMsg st hd).alerts.count (s, m) = st.alerts.count (s, m) := by
        unfold processMsg
        by_cases hm : notifId hd.1 hd.2 ∈ st.seen
        · rw [if_pos hm]
        · rw [if_neg hm]
          dsimp only
          by_cases ht : hd.2.type = "error"
          · rw [if_pos ht, List.count_append]
            have hne : (s, m) ∉ [hd] := by
              simp only [List.mem_singleton]
              rintro rfl
              exact hhd rfl
            rw [List.count_eq_zero.mpr hne, add_zero]
          · rw [if_neg ht]
      have hid2 : ∀ it ∈ rest, notifId it.1 it.2 = notifId s m → it = (s, m) :=
        fun it hit hmatch => hid it (List.mem_cons_of_mem _ hit) hmatch
      rw [hstep, ih (processMsg st hd) hfresh2 hmem2 hid2, hcount]

/-- Once the id is in the seen set, no later poll alerts it again. -/
theorem runPolls_count_zero (polls : List PollData) (seen : List String)
    (s : String) (m : Msg) (h : notifId s m ∈ seen) :
    ((runPolls seen polls).map fun st => st.alerts.count (s, m)).sum = 0 := by
  induction polls generalizing seen with
  | nil => rfl
  | cons d rest ih =>
    simp only [runPolls, List.map_cons, List.sum_cons]
    have h1 : (updateNotifications seen d).alerts.count (s, m) = 0 := by
      rw [updateNotifications, processPoll_eq, processItems_count_seen _ _ _ _ h]
      rfl
    have h2 : notifId s m ∈ (updateNotifications seen d).seen := by
      rw [updateNotifications, processPoll_eq]
      exact processItems_seen_mono _ _ _ h
    rw [h1, ih _ h2]

/-- A notification whose type is not error is never alerted across any run
of polls. -/
theorem runPolls_count_nonerror (polls : List PollData) (seen : List String)
    (s : String) (m : Msg) (herr : m.type ≠ "error") :
    ((runPolls seen polls).map fun st => st.alerts.count (s, m)).sum = 0 := by
  induction polls generalizing seen with
  | nil => rfl
  | cons d rest ih =>
    simp only [runPolls, List.map_cons, List.sum_cons]
    have h1 : (updateNotifications seen d).alerts.count (s, m) = 0 := by
      rw [updateNotifications, processPoll_eq, processItems_count_nonerror _ _ _ _ herr]
      rfl
    rw [h1, ih]

/-- Every poll of a run that carries the notification renders it. -/
theorem runPolls_rendered (polls : List PollData) (seen : List String)
    (s : String) (m : Msg) (hap : ∀ d ∈ polls, (s, m) ∈ pollItems d) :
    ∀ st ∈ runPolls seen polls, (s, m) ∈ st.rendered := by
  induction polls generalizing seen with
  | nil =>
    intro st hst
    cases hst
  | cons d rest ih =>
    intro st hst
    simp only [runPolls] at hst
    rcases List.mem_cons.mp hst with rfl | hst
    · rw [updateNotifications, processPoll_eq]
      exact processItems_rendered_mem _ _ _ (hap d (by simp))
    · exact ih (updateNotifications seen d).seen
        (fun d2 hd2 => hap d2 (by simp [hd2])) st hst

/-- C7: a notification identified by symbol and timestamp whose id is not
yet in the seen set, delivered by every poll of a nonempty run (and whose id
identifies it uniquely within those polls), is alerted exactly once when its
type is error and never otherwise, while it appears in the rendered list of
every poll of the run. -/
theorem C7_prop (seen : List String) (polls : List PollData) (s : String) (m : Msg)
    (hfresh : notifId s m ∉ seen)
    (hap : ∀ d ∈ polls, (s, m) ∈ pollItems d)
    (hid : ∀ d ∈ polls, ∀ it ∈ pollItems d, notifId it.1 it.2 = notifId s m → it = (s, m))
    (hne : polls ≠ []) :
    ((runPolls seen polls).map fun st => st.alerts.count (s, m)).sum =
      (if m.type = "error" then 1 else 0) ∧
    ∀ st ∈ runPolls seen polls, (s, m) ∈ st.rendered := by
  refine ⟨?_, runPolls_rendered polls seen s m hap⟩
  by_cases herr : m.type = "error"
  · rw [if_pos herr]
    obtain ⟨d, rest, rfl⟩ : ∃ d rest, polls = d :: rest := by
      cases polls with
      | nil => exact absurd rfl hne
      | cons d rest => exact ⟨d, rest, rfl⟩
    simp only [runPolls, List.map_cons, List.sum_cons]
    have h1 : (updateNotifications seen d).alerts.count (s, m) = 1 := by
      rw [updateNotifications, processPoll_eq,
        processItems_count_fresh _ _ _ _ hfresh (hap d (by simp)) herr (hid d (by simp))]
      rfl
    have h2 : notifId s m ∈ (updateNotifications seen d).seen := by
      rw [updateNotifications, processPoll_eq]
      exact processItems_seen_mem _ _ _ _ (hap d (by simp))
    rw [h1, runPolls_count_zero rest _ s m h2]
  · rw [if_neg herr]
    exact runPolls_count_nonerror polls seen s m herr

/-- C7 witness: the dedup scenario of the spec, the same error notification
delivered across three consecutive polls. -/
theorem C7_witness :
    (notifId "BTC" sampleMsg ∉ ([] : List String)) ∧
    (∀ d ∈ samplePolls, ("BTC", sampleMsg) ∈ pollItems d) ∧
    (∀ d ∈ samplePolls, ∀ it ∈ pollItems d,
      notifId it.1 it.2 = notifId "BTC" sampleMsg → it = ("BTC", sampleMsg)) ∧
    samplePolls ≠ [] ∧
    (((runPolls [] samplePolls).map fun st => st.alerts.count ("BTC", sampleMsg)).sum =
        (if sampleMsg.type = "error" then 1 else 0) ∧
      ∀ st ∈ runPolls [] samplePolls, ("BTC", sampleMsg) ∈ st.rendered) :=
  ⟨by decide, by decide, by decide, by decide,
    C7_prop [] samplePolls "BTC" sampleMsg (by decide) (by decide) (by decide) (by decide)⟩

/-- C3 witness: the amended statement at a concrete numeric input. -/
theorem C3_witness :
    (renderPriceCell (JsVal.num 2) = "N/A" ∨
      (∃ q : ℚ, JsVal.num 2 = JsVal.num q ∧ renderPriceCell (JsVal.num 2) = toFixed 4 q) ∨
      (∃ s : String, JsVal.num 2 = JsVal.str s ∧ s ≠ "" ∧ s ≠ "N/A" ∧
        renderPriceCell (JsVal.num 2) = s)) ∧
    (updateMarketTable (some (JsVal.num 2)) = none ↔
      ∃ s : String, JsVal.num 2 = JsVal.str s ∧ s ≠ "" ∧ s ≠ "N/A") :=
  C3_prop (JsVal.num 2)
